import Mathlib

set_option maxRecDepth 8192

/-!
Shallow embedding of the file-manipulation and orchestration layer of the
`abaqus_scripts` repository (`src/abaqus_outside.py`, `src/abaqusMacros.py`),
together with proofs about it.

Modelling conventions used throughout:

* Python strings are Lean `String`s; `needle in hay` is substring containment
  on the underlying character lists.
* Python text files are modelled as their line lists.  Where the source uses
  `readlines`, each line keeps its trailing newline character, matching
  Python; where the source writes `'\n'.join(lines)` and later re-reads the
  same file, the line list is carried through unchanged.
* `pathlib.Path` values are strings; `Path(a, b)` / `a / b` is
  `a ++ "/" ++ b`, and `stem` / `name` / `suffix` / `with_suffix` are the
  evident operations on the final `/`-separated component.
* Fallible Python code (IndexError, KeyError, NameError) is embedded with
  `Option`, `none` being the uncaught exception.
-/

/-- Substring containment, Python `needle in hay`. -/
def hasSub (needle hay : String) : Prop := needle.data <:+: hay.data

instance (needle hay : String) : Decidable (hasSub needle hay) := by
  unfold hasSub; infer_instance

/-- Boolean form of `hasSub`, for use with `List.find?` and friends. -/
def hasSubB (needle hay : String) : Bool := decide (hasSub needle hay)

/-- Concatenating after a haystack prefix that starts with the needle keeps
the needle inside; used for lines built as `"literal" ++ variable`. -/
theorem hasSub_append_of_prefix (needle p v : String) (h : needle.data <+: p.data) :
    hasSub needle (p ++ v) := by
  unfold hasSub
  rw [String.data_append]
  exact List.IsPrefix.isInfix (List.IsPrefix.trans h (List.prefix_append _ _))

/-- Two strings with distinct same-length textual prefixes are distinct,
whatever follows the prefixes. -/
theorem String.append_ne_append (p q u v : String)
    (hl : p.data.length = q.data.length) (hne : p ≠ q) : p ++ u ≠ q ++ v := by
  intro h
  apply hne
  rw [String.ext_iff] at h ⊢
  rw [String.data_append, String.data_append] at h
  have h2 := congrArg (List.take p.data.length) h
  rwa [List.take_left, hl, List.take_left] at h2

/-! ### Path model (`pathlib.Path` as plain strings) -/

/-- Path join, Python `Path(a, b)` and `a / b`. -/
def pathJoin (a b : String) : String := a ++ "/" ++ b

/-- Reversed final path component (characters after the last slash). -/
def pLastCompRev (p : List Char) : List Char :=
  p.reverse.takeWhile (fun c => c ≠ '/')

/-- Reversed parent part (everything up to and including the last slash). -/
def pParentRev (p : List Char) : List Char :=
  p.reverse.dropWhile (fun c => c ≠ '/')

/-- Reversed stem of a reversed file name: drops the part after the last dot
together with the dot itself, provided the dot is not the first character of
the name (Python `Path.stem`). -/
def nameStemRev (nameRev : List Char) : List Char :=
  let extRev := nameRev.takeWhile (fun c => c ≠ '.')
  if extRev.length + 1 < nameRev.length then nameRev.drop (extRev.length + 1)
  else nameRev

/-- Python `Path(p).name`: the final path component. -/
def pName (p : String) : String := ⟨(pLastCompRev p.data).reverse⟩

/-- Python `Path(p).stem`: the final component without its suffix. -/
def pStem (p : String) : String := ⟨(nameStemRev (pLastCompRev p.data)).reverse⟩

/-- Python `Path(p).suffix`: the extension of the final component, with its
leading dot, or the empty string when there is none. -/
def pSuffix (p : String) : String :=
  let nameRev := pLastCompRev p.data
  let extRev := nameRev.takeWhile (fun c => c ≠ '.')
  if extRev.length + 1 < nameRev.length then ⟨('.' :: extRev.reverse)⟩ else ""

/-- Python `Path(p).with_suffix(suf)`: replace (or append, if absent) the
suffix of the final component. -/
def pWithSuffix (p : String) (suf : String) : String :=
  ⟨(pParentRev p.data).reverse ++ (nameStemRev (pLastCompRev p.data)).reverse ++ suf.data⟩

/-! ### `modify_inp_file` (abaqus_outside.py lines 200-281) -/

/-- Module-level `INP_KEYWORDS` dict of abaqus_outside.py (line 23); `none`
models a `KeyError` on lookup of an unknown parameter. -/
def INP_KEYWORDS (par : String) : Option String :=
  if par = "ALPHA_DYN" then some "Dynamic,alpha"
  else if par = "E" then some "Elastic"
  else none

/-- Parameter initialization lines `par_lines` of `modify_inp_file`
(line 253): one `par=100` line per parameter, each with its newline. -/
def par_lines (parameters_list : List String) : List String :=
  parameters_list.map (fun par => par ++ "=100\n")

/-- Index of the first line containing `** ASSEMBLY`: the
`[(n, i) for n, i in enumerate(lines) if '** ASSEMBLY' in i][0][0]`
computation of line 254-255; `none` models the IndexError taken when the
comprehension is empty. -/
def assembly_index : List String → Option Nat
  | [] => none
  | l :: ls =>
    if hasSubB "** ASSEMBLY" l then some 0 else (assembly_index ls).map (· + 1)

/-- Slice assignment `lines[assembly_line:assembly_line] = ['* PARAMETER\n']
+ par_lines` of line 256: insert the parameter block immediately before the
first `** ASSEMBLY` line. -/
def modify_inp_insert (parameters_list : List String) (lines : List String) :
    Option (List String) :=
  match assembly_index lines with
  | none => none
  | some n =>
    some (lines.take n ++ (["* PARAMETER\n"] ++ par_lines parameters_list) ++ lines.drop n)

/-- Python `s.partition(sep)` restricted to its last component: the text after
the first occurrence of `sep`, or `[]` when `sep` does not occur. -/
def partitionAfter (sep : List Char) : List Char → List Char
  | [] => []
  | c :: rest =>
    if sep.isPrefixOf (c :: rest) then (c :: rest).drop sep.length
    else partitionAfter sep rest

/-- Fuel-driven worker for `replaceAll`; the fuel only bounds the recursion
depth (each step shortens the text), it never changes the result when it
starts at the text length plus one. -/
def replaceAllF : Nat → List Char → List Char → List Char → List Char
  | 0, _, _, l => l
  | _ + 1, pat, rep, [] => if pat = [] then rep else []
  | fuel + 1, pat, rep, c :: rest =>
    if pat.isPrefixOf (c :: rest) ∧ pat ≠ [] then
      rep ++ replaceAllF fuel pat rep ((c :: rest).drop pat.length)
    else if pat = [] then rep ++ c :: replaceAllF fuel pat rep rest
    else c :: replaceAllF fuel pat rep rest

/-- Python `s.replace(pat, rep)`: replace all non-overlapping occurrences,
left to right; an empty pattern inserts `rep` before every character and at
the end, as in Python. -/
def replaceAll (pat rep l : List Char) : List Char :=
  replaceAllF (l.length + 1) pat rep l

/-- Body of the keyword-substitution scan of `modify_inp_file`
(lines 259-271) for one parameter: walk the line list by index, and on each
line containing the keyword either rewrite the `key=value` text of that line
into `key=<par>`, or rewrite the value found after the keyword on the next
line into `<par>`.  `none` models the IndexError on `after_key[0]` when the
line ends right at the keyword, and the one on `lines[n + 1]` at the last
line. -/
def inp_substitute_parF : Nat → List Char → String → List (List Char) → Nat →
    Option (List (List Char))
  | 0, _, _, lines, _ => some lines
  | fuel + 1, key, par, lines, n =>
    if lines.length ≤ n then some lines
    else
      let line := lines.getD n []
      if key <:+: line then
        match partitionAfter key line with
        | [] => none
        | a :: rest2 =>
          if a = '=' then
            let newLine := replaceAll ((a :: rest2).takeWhile (fun c => c ≠ ','))
              ("=<" ++ par ++ ">").data line
            inp_substitute_parF fuel key par (lines.set n newLine) (n + 1)
          else
            if lines.length ≤ n + 1 then none
            else
              let value := (partitionAfter key (lines.getD (n + 1) [])).takeWhile
                (fun c => c ≠ ',')
              let newNext := replaceAll value ("<" ++ par ++ ">").data
                (lines.getD (n + 1) [])
              inp_substitute_parF fuel key par (lines.set (n + 1) newNext) (n + 1)
      else inp_substitute_parF fuel key par lines (n + 1)

/-- Entry point of the scan at line index `n`; the fuel of the worker only
bounds the recursion depth (the index rises by one per step while the list
keeps its length), it never changes the result when it starts above the
number of remaining lines. -/
def inp_substitute_par (key : List Char) (par : String) (lines : List (List Char))
    (n : Nat) : Option (List (List Char)) :=
  inp_substitute_parF (lines.length - n + 1) key par lines n

/-- Keyword-substitution pass of `modify_inp_file` (lines 258-271): for each
parameter look up its inp keyword (KeyError when absent) and run the line
scan. -/
def inp_substitution (parameters_list : List String) (lines : List String) :
    Option (List String) :=
  (parameters_list.foldl
    (fun acc par =>
      acc.bind (fun ls =>
        (INP_KEYWORDS par).bind (fun key =>
          inp_substitute_par key.data par ls 0)))
    (some (lines.map String.data))).map (List.map (fun l => (⟨l⟩ : String)))

/-- Line-level behaviour of `modify_inp_file` (lines 249-276): insert the
`* PARAMETER` block before the first `** ASSEMBLY` line, then run the
keyword-substitution pass.  File lines are the `readlines` output, each with
its trailing newline. -/
def modify_inp_file (parameters_list : List String) (lines : List String) :
    Option (List String) :=
  (modify_inp_insert parameters_list lines).bind (inp_substitution parameters_list)

/-! ### `build_parametric_psf` (abaqus_outside.py lines 124-198) -/

/-- Python `str(parameters_list)` for a list of strings: the repr with
single-quoted elements. -/
def paramsRepr (parameters_list : List String) : String :=
  "[" ++ String.intercalate ", "
    (parameters_list.map (fun s => "\x27" ++ s ++ "\x27")) ++ "]"

/-- The `change_folder_line` of `build_parametric_psf` (lines 159-163) when an
analysis folder is given. -/
def change_folder_line (analysis_folder study_nam : String) : String :=
  "os.chdir(\x22" ++ analysis_folder ++ "/" ++ study_nam ++ "/" ++ "\x22)"

/-- The `with open(...)` csv-reading line of the psf header (lines 173-174). -/
def with_open_line (study_nam : String) : String :=
  "with open(\x22" ++ study_nam ++ ".csv\x22) as csvfile:"

/-- The `parameters = ...` line of the psf header (line 177). -/
def parameters_line (parameters_list : List String) : String :=
  "parameters = " ++ paramsRepr parameters_list

/-- The `study = ParStudy(...)` line (line 185). -/
def study_line : String := "study = ParStudy(par=(parameters))"

/-- The `header` line block of `build_parametric_psf` (lines 170-179).  With
no analysis folder the chdir slot holds the empty string, exactly as in the
source. -/
def psf_header (analysis_folder : Option String) (study_nam : String)
    (parameters_list : List String) : List String :=
  ["import csv", "import os",
   "print(\x22EXECUTION FOLDER: \x22 + os.getcwd())",
   (match analysis_folder with
    | none => ""
    | some af => change_folder_line af study_nam),
   with_open_line study_nam,
   "    reader = csv.DictReader(csvfile)",
   "    lines = [row for row in reader]",
   parameters_line parameters_list,
   "domains = \x7bparameter :[k[parameter] for k in lines] for parameter in parameters\x7d"]

/-- The `study_lines` block of `build_parametric_psf` (lines 185-192). -/
def psf_study_lines (inp_file_name : String) : List String :=
  [study_line,
   "for parameter in parameters:",
   "    study.define(DISCRETE,par=parameter, domain=domains[parameter])",
   "for parameter in parameters:",
   "    study.sample(INTERVAL, interval=1, par=parameter)",
   "study.combine(TUPLE, name=\x22model\x22)",
   "study.generate(template=\x22" ++ inp_file_name ++ "\x22)"]

/-- Lines written by `build_parametric_psf` (line 196:
`'\n'.join(header + study_lines)`). -/
def build_parametric_psf_lines (analysis_folder : Option String)
    (study_nam : String) (parameters_list : List String)
    (inp_file_name : String) : List String :=
  psf_header analysis_folder study_nam parameters_list ++ psf_study_lines inp_file_name

/-- Path of the psf written by `build_parametric_psf` (line 156). -/
def build_parametric_psf_path (parametric_csv : String) : String :=
  pWithSuffix parametric_csv ".psf"

/-! ### `modify_psf_4_run` (abaqus_outside.py lines 283-330) -/

/-- The appended `study.execute` line (lines 325-326), whose execOptions
string carries the cpu count. -/
def execution_line (cpu_numbers : Int) : String :=
  "study.execute(ALL, execOptions = " ++ "\x22cpus=" ++ toString cpu_numbers ++ "\x22)"

/-- Line-level behaviour of `modify_psf_4_run` (lines 314-329): pick from the
input psf the first line containing `os.chdir` (only when an analysis folder
is given), the first containing `parameters = ` and the first containing
`study = `, and append the execution line; `none` models the IndexError when
a sought line is absent. -/
def modify_psf_4_run_lines (lines : List String) (has_analysis_folder : Bool)
    (cpu_numbers : Int) : Option (List String) :=
  let line_0 : Option (List String) :=
    if has_analysis_folder then (lines.find? (hasSubB "os.chdir")).map (fun l => [l])
    else some []
  match line_0, lines.find? (hasSubB "parameters = "),
      lines.find? (hasSubB "study = ") with
  | some l0, some pl, some sl => some (l0 ++ [pl, sl, execution_line cpu_numbers])
  | _, _, _ => none

/-- Output path of `modify_psf_4_run` (lines 308-312): the input psf itself,
or `analysis_folder/study/study.psf` when an analysis folder is given. -/
def modify_psf_4_run_out_path (psf_file_path : String)
    (analysis_folder : Option String) : String :=
  match analysis_folder with
  | none => psf_file_path
  | some af =>
    pWithSuffix (pathJoin (pathJoin af (pStem psf_file_path)) (pStem psf_file_path)) ".psf"

/-! ### `build_parametric_csv` (abaqus_outside.py lines 66-122) -/

/-- Numpy `np.linspace(a, b, n)` over exact rationals: `n` evenly spaced
points from `a` to `b`, endpoints included. -/
def linspace (a b : ℚ) (n : Nat) : List ℚ :=
  if n = 0 then []
  else if n = 1 then [a]
  else (List.range n).map (fun i => a + i * (b - a) / (n - 1))

/-- Rows of the csv written by `build_parametric_csv` (lines 108-115) as
`(MODEL_NO, value)` pairs: for a one-parameter study, the uniform sample
vector plus the reference values, sorted ascending, numbered from 1.  `none`
models the NameError of line 114 when `parameters_list` does not have exactly
one element (no data-frame was built), and the IndexError on
`min_values[0]` / `max_values[0]` when those lists are empty. -/
def build_parametric_csv_rows (parameters_list : List String)
    (max_values min_values normal_values : List ℚ) (sample_size : Nat) :
    Option (List (Nat × ℚ)) :=
  match parameters_list, min_values, max_values with
  | [_], mn :: _, mx :: _ =>
    let samples := List.insertionSort (· ≤ ·)
      (linspace mn mx sample_size ++ normal_values)
    some ((List.range' 1 samples.length).zip samples)
  | [_], _, _ => none
  | _, _, _ => none

/-! ### Cpu resolution in `create_parametric_files` (lines 339-342) -/

/-- The cpu ceiling applied by `create_parametric_files`: keep the configured
value unless it is absent or exceeds `multiprocessing.cpu_count()`, in which
case the machine cpu count is used. -/
def resolve_cpu_numbers (config_cpu : Option Int) (max_cpu_no : Int) : Int :=
  match config_cpu with
  | none => max_cpu_no
  | some v => if v > max_cpu_no then max_cpu_no else v

/-! ### Subprocess orchestration (`run_abaqus_subprocess`, `run_psf`,
abaqus_outside.py lines 550-639) -/

/-- Subprocess-level events: a `subprocess.Popen` launch with its command
string, and the blocking `communicate()` call that waits for termination. -/
inductive ProcEvent where
  | popen (cmd : String)
  | communicate
deriving DecidableEq

/-- Whether an event is a subprocess launch. -/
def ProcEvent.isPopen : ProcEvent → Bool
  | .popen _ => true
  | .communicate => false

/-- Abaqus executable selection of `run_abaqus_subprocess` (lines 580-583). -/
def abaqus_command (gui : Bool) : String :=
  if gui then "abaqus cae script=" else "abaqus cae noGUI="

/-- Command string passed to `subprocess.Popen` by `run_abaqus_subprocess`
(lines 587-591), with the chdir wrapper when a database folder is given. -/
def subprocess_cmd (script : String) (database_folder : Option String)
    (gui : Bool) : String :=
  match database_folder with
  | none => abaqus_command gui ++ script
  | some dbf =>
    "SET original_folder=%cd% & cd " ++ dbf ++ " & ECHO %cd% & cd & " ++
      abaqus_command gui ++ script ++ " -- %cd%"

/-- Behaviour of `run_abaqus_subprocess` (lines 550-609): launch one Abaqus
subprocess, block on `communicate`, then filter the captured stdout lines
(already split at CRLF) down to output-variable references, dropping lines
that equal a stripped path or contain a space.  The subprocess trace is the
first component; the stdout lines and the verbose flag do not influence it. -/
def run_abaqus_subprocess (script : String) (database_folder : Option String)
    (gui : Bool) (cwd : String) (sub_stdout : List String) :
    List ProcEvent × List String :=
  let process := subprocess_cmd script database_folder gui
  let paths_to_strip := [cwd] ++
    (match database_folder with | none => [] | some d => [d])
  let out_var_references := sub_stdout.filter
    (fun i => decide (i ∉ paths_to_strip) && !(hasSubB " " i))
  ([ProcEvent.popen process, ProcEvent.communicate], out_var_references)

/-- Behaviour of `run_psf` (lines 612-639): build the psf path from the input
(either a psf file directly, or via the analysis folder of a config file),
then launch one `abaqus script=` subprocess and block on `communicate`.
`none` models the NameError when the input has neither suffix and `psf_file`
was never assigned. -/
def run_psf (input_var : String) (cfg_analysis_folder : String) :
    Option (List ProcEvent) :=
  let psf_file : Option String :=
    if pSuffix input_var = ".psf" then some input_var
    else if pSuffix input_var = ".cfg" then
      some (pWithSuffix
        (pathJoin (pathJoin cfg_analysis_folder (pStem input_var)) (pStem input_var))
        ".psf")
    else none
  psf_file.map (fun f => [ProcEvent.popen ("abaqus script=" ++ f),
    ProcEvent.communicate])

/-! ### Job macros (`abaqusMacros.py`) -/

/-- Job-level events inside Abaqus CAE: `job.submit(...)` and
`job.waitForCompletion()`. -/
inductive JobEvent where
  | submit (job : String)
  | wait (job : String)
deriving DecidableEq

/-- Whether an event is a submission. -/
def JobEvent.isSubmit : JobEvent → Bool
  | .submit _ => true
  | .wait _ => false

/-- Whether an event is a wait. -/
def JobEvent.isWait : JobEvent → Bool
  | .submit _ => false
  | .wait _ => true

/-- Event trace of `jobs_run_all` (abaqusMacros.py lines 56-64): iterate over
the database jobs in order, submitting each and waiting for its completion
before moving on. -/
def jobs_run_all (jobs : List String) : List JobEvent :=
  jobs.foldl (fun trace j => trace ++ [JobEvent.submit j, JobEvent.wait j]) []

/-- Python `model_key.replace(' ', '_')` of abaqusMacros.py lines 31 and 44. -/
def underscore_name (model_key : String) : String :=
  ⟨model_key.data.map (fun c => if c = ' ' then '_' else c)⟩

/-- Abaqus model database state visible to the job macros: the model keys and
the job keys of `mdb`. -/
structure Mdb where
  models : List String
  jobs : List String
deriving DecidableEq

/-- Effect of `mdb.Job(name=n, ...)` on the job-key set: a new key is
appended, an existing one is overwritten in place. -/
def addJob (jobs : List String) (name : String) : List String :=
  if name ∈ jobs then jobs else jobs ++ [name]

/-- One loop iteration of `jobs_create_4all_models_with_overwrite`
(abaqusMacros.py lines 43-52): the `mdb.Job(name=model_name, ...)` call on
one model key, recorded in the creation trace. -/
def owStep (s : Mdb × List String) (k : String) : Mdb × List String :=
  ({ s.1 with jobs := addJob s.1.jobs (underscore_name k) },
    s.2 ++ [underscore_name k])

/-- State and creation trace of `jobs_create_4all_models_with_overwrite`
(abaqusMacros.py lines 37-53): create a job named after every model (blank
spaces replaced by underscores), unconditionally; the trace records each
`mdb.Job` call. -/
def jobs_create_4all_models_with_overwrite (st : Mdb × List String) :
    Mdb × List String :=
  st.1.models.foldl owStep st

/-- One loop iteration of `jobs_create_4all_models` (abaqusMacros.py lines
30-33): skip the model when its underscored name already has a job, call the
overwrite variant on the current database otherwise. -/
def fourStep (st : Mdb × List String) (k : String) : Mdb × List String :=
  if underscore_name k ∈ st.1.jobs then st
  else jobs_create_4all_models_with_overwrite st

/-- State and creation trace of `jobs_create_4all_models` (abaqusMacros.py
lines 24-34): walk the models and, whenever the underscored model name has no
job yet, call `jobs_create_4all_models_with_overwrite` on the current
database. -/
def jobs_create_4all_models (m : Mdb) : Mdb × List String :=
  m.models.foldl fourStep (m, [])

/-! ### `parametric_check_odb_files` (abaqus_outside.py lines 499-547) -/

/-- Log file of one parametric job: its file name and its `readlines` content
(each line keeping its trailing newline). -/
structure LogFile where
  name : String
  lines : List String
deriving DecidableEq

/-- Modelled from the spec: `strings_tools.extract_number_from_str` lives in
the `tools_submodule` repository, which is not under src/.  Per the spec it
extracts the sequence number from a log file name; the digits of the name are
read as one decimal number. -/
def extract_number_from_str (s : String) : Nat :=
  s.data.foldl (fun acc c => if c.isDigit then acc * 10 + (c.toNat - 48) else acc) 0

/-- Modelled from the spec: `strings_tools.sort_strings_by_digit` lives in
the `tools_submodule` repository, not under src/.  It sorts the file names by
their extracted numbers. -/
def sort_strings_by_digit (l : List String) : List String :=
  List.insertionSort
    (fun a b => extract_number_from_str a ≤ extract_number_from_str b) l

/-- Modelled from the spec: `math_tools.check_array_consecutiveness` lives in
the `tools_submodule` repository, not under src/.  Per the spec ("no .log
file is missing") it holds exactly when each number is one more than its
predecessor, so that none of the sequence is missing. -/
def check_array_consecutiveness : List Nat → Bool
  | [] => true
  | [_] => true
  | a :: b :: rest => (b == a + 1) && check_array_consecutiveness (b :: rest)

/-- Last space-separated token of a line.  The source computes
`lines_list[-1].split(' ')[-1]`; the last element of a split at single spaces
is the text after the last space. -/
def last_token (line : String) : String :=
  ⟨(line.data.reverse.takeWhile (fun c => c ≠ ' ')).reverse⟩

/-- Behaviour of `parametric_check_odb_files` (lines 517-547): check that the
numbers of the log files are consecutive, then scan every log file and demand
that the last token of its last line is the COMPLETED keyword (with its
newline, as read by `readlines`).  The second component returns the folder
contents untouched: the function only ever opens files for reading.  `none`
models the IndexError on `lines_list[-1]` at an empty log file. -/
def parametric_check_odb_files (files : List LogFile) :
    Option Bool × List LogFile :=
  let numbers := (sort_strings_by_digit (files.map (fun f => f.name))).map
    extract_number_from_str
  let check_files := check_array_consecutiveness numbers
  if files.any (fun f => f.lines.isEmpty) then (none, files)
  else
    (some (files.foldl
      (fun st f =>
        if last_token (f.lines.getLastD "") ≠ "COMPLETED\n" then false else st)
      check_files), files)

/-! ### `summarize_fea_output` (abaqus_outside.py lines 642-691) -/

/-- One npz file of the study temp_files folder: the number of the model it
came from and its named numpy arrays.  Array contents are an opaque type
parameter: the pipeline never computes on them. -/
structure NpzFile (α : Type) where
  model_no : Nat
  arrays : List (String × α)

/-- Attribute dict attached to a dataset (lines 675-679): the csv row of the
model with `MODEL_NO` set to the stringified model number. -/
def df_dict_row (row : Nat × List (String × String)) : List (String × String) :=
  row.2 ++ [("MODEL_NO", toString row.1)]

/-- Attributes of a model number, looked up in the parametric csv indexed by
`MODEL_NO`. -/
def attrs_for (csv : List (Nat × List (String × String))) (k : Nat) :
    Option (List (String × String)) :=
  (csv.find? (fun r => r.1 == k)).map df_dict_row

/-- Modelled from the spec: `databases_tools.save_npz_in_hdf5` and
`databases_tools.restructure_hdf5_file` live in the `tools_submodule`
repository, not under src/.  Per the spec, every numpy array of every npz
file is stored in the hdf5 file unchanged, regrouped under its
output-variable key, and is given the csv attributes of its model. -/
def hdf5_datasets (α : Type) (npz_files : List (NpzFile α))
    (csv : List (Nat × List (String × String))) :
    List (String × α × Option (List (String × String))) :=
  npz_files.flatMap
    (fun f => f.arrays.map (fun va => (va.1, va.2, attrs_for csv f.model_no)))

/-- Datasets stored in the hdf5 group of one output-variable key. -/
def hdf5_group (α : Type) (npz_files : List (NpzFile α))
    (csv : List (Nat × List (String × String))) (var : String) :
    List (α × Option (List (String × String))) :=
  (hdf5_datasets α npz_files csv).filterMap
    (fun d => if d.1 = var then some d.2 else none)

/-- Behaviour of `summarize_fea_output` (lines 642-691): aggregate the npz
arrays into the hdf5 structure and return the config path with its suffix
replaced by `.hdf5` (line 668). -/
def summarize_fea_output (α : Type) (config_file : String)
    (npz_files : List (NpzFile α)) (csv : List (Nat × List (String × String))) :
    (String → List (α × Option (List (String × String)))) × String :=
  (hdf5_group α npz_files csv, pWithSuffix config_file ".hdf5")

/-! ### `create_parametric_files` (abaqus_outside.py lines 26-361) -/

/-- Study data from the configuration file, as read by
`ft.extract_config_from_cfg`; optional entries mirror the keys that the
source defaults when absent (lines 340-346). -/
structure ParametricConfig where
  parameters_list : List String
  max_values : List ℚ
  min_values : List ℚ
  normal_values : List ℚ
  sample_size : Nat
  cpu_numbers : Option Int
  inp_file_name : Option String
  analysis_folder : Option String

/-- Host environment of one `create_parametric_files` call: working
directory, config file path, `multiprocessing.cpu_count()`, and the content
of the FEA inp deck that `modify_inp_file` reads. -/
structure PipelineEnv where
  cwd : String
  config_file : String
  max_cpu_no : Int
  inp_lines : List String

/-- Steps of the parametric pipeline, in the order the source performs them,
each carrying the path it produces or consumes. -/
inductive PipelineStep where
  | gen_csv (csv : String)
  | build_psf (psf : String)
  | mod_inp
  | run_psf_cmd (psf : String)
  | mod_psf (psf : String)
deriving DecidableEq

/-- Behaviour of `create_parametric_files` (lines 332-361): resolve defaults
(cpu ceiling, inp name, analysis folder), then in sequence build the samples
csv, build the psf script, modify the inp deck, run the psf through the
Abaqus command line, and rewrite the psf with the job-execution line,
returning the step trace, the lines of the final psf and its path.  `none`
models an uncaught exception in any step.  The inner functions receive the
`study_folde` default of the source: the keyword passed from the top level
is spelled `study_folder`, so the sub-functions always fall back to
`cwd/study_name`. -/
def create_parametric_files (env : PipelineEnv) (cfg : ParametricConfig) :
    Option (List PipelineStep × List String × String) :=
  let study_name := pStem env.config_file
  let study_folder := pathJoin env.cwd study_name
  let cpu := resolve_cpu_numbers cfg.cpu_numbers env.max_cpu_no
  let inp_file_name := (cfg.inp_file_name).getD study_name
  let analysis_folder := (cfg.analysis_folder).getD study_folder
  match build_parametric_csv_rows cfg.parameters_list cfg.max_values
      cfg.min_values cfg.normal_values cfg.sample_size with
  | none => none
  | some _ =>
    let csv_file := pWithSuffix (pathJoin study_folder study_name) ".csv"
    let psf_file := build_parametric_psf_path csv_file
    let psf_lines := build_parametric_psf_lines (some analysis_folder)
      (pStem csv_file) cfg.parameters_list (pName inp_file_name)
    match modify_inp_file cfg.parameters_list env.inp_lines with
    | none => none
    | some _ =>
      match run_psf psf_file analysis_folder with
      | none => none
      | some _ =>
        match modify_psf_4_run_lines psf_lines true cpu with
        | none => none
        | some out_lines =>
          let out_psf := modify_psf_4_run_out_path psf_file (some analysis_folder)
          some ([PipelineStep.gen_csv csv_file, PipelineStep.build_psf psf_file,
                 PipelineStep.mod_inp, PipelineStep.run_psf_cmd psf_file,
                 PipelineStep.mod_psf out_psf],
                out_lines, out_psf)

/-! ### Helper lemmas on lists and paths -/

theorem takeWhile_append_all {α : Type} (p : α → Bool) (l1 l2 : List α)
    (h : ∀ c ∈ l1, p c) :
    (l1 ++ l2).takeWhile p = l1 ++ l2.takeWhile p := by
  induction l1 with
  | nil => simp
  | cons a t ih =>
    simp only [List.cons_append, List.takeWhile_cons]
    rw [h a (by simp)]
    simp [ih (fun c hc => h c (by simp [hc]))]

theorem dropWhile_append_all {α : Type} (p : α → Bool) (l1 l2 : List α)
    (h : ∀ c ∈ l1, p c) :
    (l1 ++ l2).dropWhile p = l2.dropWhile p := by
  induction l1 with
  | nil => simp
  | cons a t ih =>
    simp only [List.cons_append, List.dropWhile_cons]
    rw [h a (by simp)]
    simp [ih (fun c hc => h c (by simp [hc]))]

theorem takeWhile_eq_self_of_all {α : Type} (p : α → Bool) (l : List α)
    (h : ∀ c ∈ l, p c) : l.takeWhile p = l := by
  have h2 := takeWhile_append_all p l [] h
  simpa using h2

theorem data_pathJoin (a b : String) :
    (pathJoin a b).data = a.data ++ '/' :: b.data := by
  simp [pathJoin, String.data_append]

theorem pLastCompRev_join (p s : String) (h : '/' ∉ s.data) :
    pLastCompRev (pathJoin p s).data = s.data.reverse := by
  unfold pLastCompRev
  rw [data_pathJoin, List.reverse_append, List.reverse_cons, List.append_assoc,
    List.singleton_append]
  rw [takeWhile_append_all _ _ _
    (fun c hc => by
      simp only [decide_eq_true_eq, ne_eq]
      intro he
      exact h (by rw [← he]; exact List.mem_reverse.mp hc))]
  simp [List.takeWhile_cons]

theorem pParentRev_join (p s : String) (h : '/' ∉ s.data) :
    pParentRev (pathJoin p s).data = '/' :: p.data.reverse := by
  unfold pParentRev
  rw [data_pathJoin, List.reverse_append, List.reverse_cons, List.append_assoc,
    List.singleton_append]
  rw [dropWhile_append_all _ _ _
    (fun c hc => by
      simp only [decide_eq_true_eq, ne_eq]
      intro he
      exact h (by rw [← he]; exact List.mem_reverse.mp hc))]
  simp [List.dropWhile_cons]

theorem nameStemRev_of_no_dot (l : List Char) (h : '.' ∉ l) : nameStemRev l = l := by
  unfold nameStemRev
  rw [takeWhile_eq_self_of_all _ _
    (fun c hc => by
      simp only [decide_eq_true_eq, ne_eq]
      intro he
      exact h (he ▸ hc))]
  simp

theorem pWithSuffix_join (p s suf : String) (h1 : '/' ∉ s.data) (h2 : '.' ∉ s.data) :
    pWithSuffix (pathJoin p s) suf = pathJoin p (s ++ suf) := by
  unfold pWithSuffix
  rw [pParentRev_join _ _ h1, pLastCompRev_join _ _ h1,
    nameStemRev_of_no_dot _ (by simpa using h2)]
  apply String.ext
  simp [data_pathJoin, String.data_append, List.append_assoc]

theorem no_slash_append_ext (s : String) (e : List Char) (hs : '/' ∉ s.data)
    (he : '/' ∉ e) : '/' ∉ (s ++ (⟨'.' :: e⟩ : String)).data := by
  rw [String.data_append]
  intro hmem
  rcases List.mem_append.mp hmem with hl | hr
  · exact hs hl
  · rcases List.mem_cons.mp hr with h0 | h0
    · exact absurd h0 (by decide)
    · exact he h0

theorem lastCompRev_join_ext (p s : String) (e : List Char) (hs1 : '/' ∉ s.data)
    (he2 : '/' ∉ e) :
    pLastCompRev (pathJoin p (s ++ (⟨'.' :: e⟩ : String))).data =
      (e.reverse ++ ['.']) ++ s.data.reverse := by
  rw [pLastCompRev_join _ _ (no_slash_append_ext s e hs1 he2)]
  rw [String.data_append]
  show (s.data ++ ('.' :: e)).reverse = (e.reverse ++ ['.']) ++ s.data.reverse
  rw [List.reverse_append, List.reverse_cons]

theorem nameStemRev_ext (s : String) (e : List Char) (hs3 : s.data ≠ [])
    (he1 : '.' ∉ e) :
    nameStemRev ((e.reverse ++ ['.']) ++ s.data.reverse) = s.data.reverse := by
  unfold nameStemRev
  rw [List.append_assoc, List.singleton_append]
  rw [takeWhile_append_all _ _ _
    (fun c hc => by
      simp only [decide_eq_true_eq, ne_eq]
      intro hce
      exact he1 (hce ▸ (List.mem_reverse.mp hc)))]
  simp only [List.takeWhile_cons]
  have hdot : (decide (('.' : Char) ≠ '.')) = false := by decide
  rw [hdot]
  simp only [Bool.false_eq_true, if_false, List.append_nil]
  have hlen : e.reverse.length + 1 < (e.reverse ++ '.' :: s.data.reverse).length := by
    simp only [List.length_append, List.length_cons]
    have : 0 < s.data.reverse.length := by
      rw [List.length_reverse]
      exact List.length_pos.mpr hs3
    omega
  rw [if_pos hlen]
  have hlenEq : e.reverse.length + 1 = (e.reverse ++ ['.']).length := by
    simp
  have hsplit : e.reverse ++ '.' :: s.data.reverse =
      (e.reverse ++ ['.']) ++ s.data.reverse := by
    rw [List.append_assoc, List.singleton_append]
  rw [hlenEq, hsplit, List.drop_left]

theorem pStem_join_ext (p s : String) (e : List Char) (hs1 : '/' ∉ s.data)
    (hs3 : s.data ≠ []) (he1 : '.' ∉ e) (he2 : '/' ∉ e) :
    pStem (pathJoin p (s ++ (⟨'.' :: e⟩ : String))) = s := by
  unfold pStem
  rw [lastCompRev_join_ext p s e hs1 he2, nameStemRev_ext s e hs3 he1]
  apply String.ext
  simp

theorem pSuffix_join_ext (p s : String) (e : List Char) (hs1 : '/' ∉ s.data)
    (hs3 : s.data ≠ []) (he1 : '.' ∉ e) (he2 : '/' ∉ e) :
    pSuffix (pathJoin p (s ++ (⟨'.' :: e⟩ : String))) = (⟨'.' :: e⟩ : String) := by
  unfold pSuffix
  dsimp only
  rw [lastCompRev_join_ext p s e hs1 he2]
  rw [List.append_assoc, List.singleton_append]
  rw [takeWhile_append_all _ _ _
    (fun c hc => by
      simp only [decide_eq_true_eq, ne_eq]
      intro hce
      exact he1 (hce ▸ (List.mem_reverse.mp hc)))]
  simp only [List.takeWhile_cons]
  have hdot : (decide (('.' : Char) ≠ '.')) = false := by decide
  rw [hdot]
  simp only [Bool.false_eq_true, if_false, List.append_nil]
  have hlen : e.reverse.length + 1 < (e.reverse ++ '.' :: s.data.reverse).length := by
    simp only [List.length_append, List.length_cons]
    have : 0 < s.data.reverse.length := by
      rw [List.length_reverse]
      exact List.length_pos.mpr hs3
    omega
  rw [if_pos hlen]
  simp

theorem pWithSuffix_join_ext (p s : String) (e : List Char) (suf : String)
    (hs1 : '/' ∉ s.data) (hs3 : s.data ≠ []) (he1 : '.' ∉ e) (he2 : '/' ∉ e) :
    pWithSuffix (pathJoin p (s ++ (⟨'.' :: e⟩ : String))) suf =
      pathJoin p (s ++ suf) := by
  unfold pWithSuffix
  rw [lastCompRev_join_ext p s e hs1 he2, nameStemRev_ext s e hs3 he1,
    pParentRev_join _ _ (no_slash_append_ext s e hs1 he2)]
  apply String.ext
  simp [data_pathJoin, String.data_append, List.append_assoc]

/-! ### Helper lemmas on the psf line selection -/

theorem hasSubB_true_iff (needle hay : String) :
    hasSubB needle hay = true ↔ hasSub needle hay := by
  simp [hasSubB]

theorem hasSub_middle (needle x y : String) : hasSub needle (x ++ needle ++ y) := by
  unfold hasSub
  exact ⟨x.data, y.data, by simp [String.data_append]⟩

theorem hasSub_chdir (a sn : String) :
    hasSub "os.chdir" (change_folder_line a sn) := by
  have hre : change_folder_line a sn =
      "os.chdir(\x22" ++ (a ++ ("/" ++ (sn ++ ("/" ++ "\x22)")))) := by
    simp only [change_folder_line, String.append_assoc]
  rw [hre]
  exact hasSub_append_of_prefix _ _ _ (by decide)

theorem hasSub_parameters (ps : List String) :
    hasSub "parameters = " (parameters_line ps) := by
  exact hasSub_append_of_prefix _ _ _ (by decide)

theorem hasSub_cpus (cpu : Int) :
    hasSub ("cpus=" ++ toString cpu) (execution_line cpu) := by
  have hq : ("\x22cpus=" : String) = "\x22" ++ "cpus=" := by decide
  have hre : execution_line cpu =
      ("study.execute(ALL, execOptions = " ++ "\x22") ++
        ("cpus=" ++ toString cpu) ++ "\x22)" := by
    simp only [execution_line, hq, String.append_assoc]
  rw [hre]
  exact hasSub_middle _ _ _

theorem build_lines_some_eq (a sn : String) (ps : List String) (inp : String) :
    build_parametric_psf_lines (some a) sn ps inp =
      "import csv" :: "import os" ::
      "print(\x22EXECUTION FOLDER: \x22 + os.getcwd())" ::
      change_folder_line a sn :: with_open_line sn ::
      "    reader = csv.DictReader(csvfile)" ::
      "    lines = [row for row in reader]" ::
      parameters_line ps ::
      "domains = \x7bparameter :[k[parameter] for k in lines] for parameter in parameters\x7d" ::
      study_line ::
      "for parameter in parameters:" ::
      "    study.define(DISCRETE,par=parameter, domain=domains[parameter])" ::
      "for parameter in parameters:" ::
      "    study.sample(INTERVAL, interval=1, par=parameter)" ::
      "study.combine(TUPLE, name=\x22model\x22)" ::
      ["study.generate(template=\x22" ++ inp ++ "\x22)"] := rfl

theorem build_lines_none_eq (sn : String) (ps : List String) (inp : String) :
    build_parametric_psf_lines none sn ps inp =
      "import csv" :: "import os" ::
      "print(\x22EXECUTION FOLDER: \x22 + os.getcwd())" ::
      "" :: with_open_line sn ::
      "    reader = csv.DictReader(csvfile)" ::
      "    lines = [row for row in reader]" ::
      parameters_line ps ::
      "domains = \x7bparameter :[k[parameter] for k in lines] for parameter in parameters\x7d" ::
      study_line ::
      "for parameter in parameters:" ::
      "    study.define(DISCRETE,par=parameter, domain=domains[parameter])" ::
      "for parameter in parameters:" ::
      "    study.sample(INTERVAL, interval=1, par=parameter)" ::
      "study.combine(TUPLE, name=\x22model\x22)" ::
      ["study.generate(template=\x22" ++ inp ++ "\x22)"] := rfl

theorem find_chdir_in_build (a sn : String) (ps : List String) (inp : String) :
    List.find? (hasSubB "os.chdir") (build_parametric_psf_lines (some a) sn ps inp) =
      some (change_folder_line a sn) := by
  rw [build_lines_some_eq]
  rw [List.find?_cons_of_neg _ (by decide), List.find?_cons_of_neg _ (by decide),
    List.find?_cons_of_neg _ (by decide)]
  exact List.find?_cons_of_pos _ ((hasSubB_true_iff _ _).mpr (hasSub_chdir a sn))

theorem find_parameters_in_build (af : Option String) (sn : String)
    (ps : List String) (inp : String)
    (hch : ∀ a, af = some a → ¬ hasSub "parameters = " (change_folder_line a sn))
    (hwo : ¬ hasSub "parameters = " (with_open_line sn)) :
    List.find? (hasSubB "parameters = ") (build_parametric_psf_lines af sn ps inp) =
      some (parameters_line ps) := by
  have hwoB : ¬ hasSubB "parameters = " (with_open_line sn) = true := by
    rw [hasSubB_true_iff]; exact hwo
  cases af with
  | none =>
    rw [build_lines_none_eq]
    rw [List.find?_cons_of_neg _ (by decide), List.find?_cons_of_neg _ (by decide),
      List.find?_cons_of_neg _ (by decide), List.find?_cons_of_neg _ (by decide),
      List.find?_cons_of_neg _ hwoB,
      List.find?_cons_of_neg _ (by decide), List.find?_cons_of_neg _ (by decide)]
    exact List.find?_cons_of_pos _ ((hasSubB_true_iff _ _).mpr (hasSub_parameters ps))
  | some a =>
    have hchB : ¬ hasSubB "parameters = " (change_folder_line a sn) = true := by
      rw [hasSubB_true_iff]; exact hch a rfl
    rw [build_lines_some_eq]
    rw [List.find?_cons_of_neg _ (by decide), List.find?_cons_of_neg _ (by decide),
      List.find?_cons_of_neg _ (by decide), List.find?_cons_of_neg _ hchB,
      List.find?_cons_of_neg _ hwoB,
      List.find?_cons_of_neg _ (by decide), List.find?_cons_of_neg _ (by decide)]
    exact List.find?_cons_of_pos _ ((hasSubB_true_iff _ _).mpr (hasSub_parameters ps))

theorem find_study_in_build (af : Option String) (sn : String)
    (ps : List String) (inp : String)
    (hch : ∀ a, af = some a → ¬ hasSub "study = " (change_folder_line a sn))
    (hwo : ¬ hasSub "study = " (with_open_line sn))
    (hpl : ¬ hasSub "study = " (parameters_line ps)) :
    List.find? (hasSubB "study = ") (build_parametric_psf_lines af sn ps inp) =
      some study_line := by
  have hwoB : ¬ hasSubB "study = " (with_open_line sn) = true := by
    rw [hasSubB_true_iff]; exact hwo
  have hplB : ¬ hasSubB "study = " (parameters_line ps) = true := by
    rw [hasSubB_true_iff]; exact hpl
  cases af with
  | none =>
    rw [build_lines_none_eq]
    rw [List.find?_cons_of_neg _ (by decide), List.find?_cons_of_neg _ (by decide),
      List.find?_cons_of_neg _ (by decide), List.find?_cons_of_neg _ (by decide),
      List.find?_cons_of_neg _ hwoB,
      List.find?_cons_of_neg _ (by decide), List.find?_cons_of_neg _ (by decide),
      List.find?_cons_of_neg _ hplB, List.find?_cons_of_neg _ (by decide)]
    exact List.find?_cons_of_pos _ (by decide)
  | some a =>
    have hchB : ¬ hasSubB "study = " (change_folder_line a sn) = true := by
      rw [hasSubB_true_iff]; exact hch a rfl
    rw [build_lines_some_eq]
    rw [List.find?_cons_of_neg _ (by decide), List.find?_cons_of_neg _ (by decide),
      List.find?_cons_of_neg _ (by decide), List.find?_cons_of_neg _ hchB,
      List.find?_cons_of_neg _ hwoB,
      List.find?_cons_of_neg _ (by decide), List.find?_cons_of_neg _ (by decide),
      List.find?_cons_of_neg _ hplB, List.find?_cons_of_neg _ (by decide)]
    exact List.find?_cons_of_pos _ (by decide)

theorem modify_psf_on_build (af : Option String) (sn : String) (ps : List String)
    (inp : String) (cpu : Int)
    (hchp : ∀ a, af = some a → ¬ hasSub "parameters = " (change_folder_line a sn))
    (hchs : ∀ a, af = some a → ¬ hasSub "study = " (change_folder_line a sn))
    (hwp : ¬ hasSub "parameters = " (with_open_line sn))
    (hws : ¬ hasSub "study = " (with_open_line sn))
    (hps : ¬ hasSub "study = " (parameters_line ps)) :
    modify_psf_4_run_lines (build_parametric_psf_lines af sn ps inp) af.isSome cpu =
      some ((match af with
             | none => []
             | some a => [change_folder_line a sn]) ++
        [parameters_line ps, study_line, execution_line cpu]) := by
  cases af with
  | none =>
    unfold modify_psf_4_run_lines
    rw [find_parameters_in_build none sn ps inp hchp hwp,
      find_study_in_build none sn ps inp hchs hws hps]
    rfl
  | some a =>
    unfold modify_psf_4_run_lines
    rw [find_parameters_in_build (some a) sn ps inp hchp hwp,
      find_study_in_build (some a) sn ps inp hchs hws hps]
    dsimp only [Option.isSome]
    rw [if_pos rfl, find_chdir_in_build a sn ps inp]
    rfl

/-! ### Helper lemmas on string discrimination by leading characters -/

theorem ne_of_data_take (n : Nat) (a b : String)
    (h : a.data.take n ≠ b.data.take n) : a ≠ b := by
  intro he
  exact h (by rw [he])

theorem take_data_append (n : Nat) (p v : String) (h : n ≤ p.data.length) :
    (p ++ v).data.take n = p.data.take n := by
  rw [String.data_append, List.take_append_of_le_length h]

theorem take7_chdir (a sn : String) :
    (change_folder_line a sn).data.take 7 = "os.chdi".data := by
  have hre : change_folder_line a sn =
      "os.chdir(\x22" ++ (a ++ ("/" ++ (sn ++ ("/" ++ "\x22)")))) := by
    simp only [change_folder_line, String.append_assoc]
  rw [hre, take_data_append 7 _ _ (by decide)]
  decide

theorem take7_parameters (ps : List String) :
    (parameters_line ps).data.take 7 = "paramet".data := by
  rw [parameters_line, take_data_append 7 _ _ (by decide)]
  decide

theorem take7_execution (cpu : Int) :
    (execution_line cpu).data.take 7 = "study.e".data := by
  have hre : execution_line cpu =
      "study.execute(ALL, execOptions = " ++
        ("\x22cpus=" ++ (toString cpu ++ "\x22)")) := by
    simp only [execution_line, String.append_assoc]
  rw [hre, take_data_append 7 _ _ (by decide)]
  decide

theorem take7_generate (inp : String) :
    ("study.generate(template=\x22" ++ inp ++ "\x22)").data.take 7 =
      "study.g".data := by
  have hre : "study.generate(template=\x22" ++ inp ++ "\x22)" =
      "study.generate(template=\x22" ++ (inp ++ "\x22)") := by
    simp only [String.append_assoc]
  rw [hre, take_data_append 7 _ _ (by decide)]
  decide

/-! ### Helper lemmas on the job-submission trace -/

/-- Reference shape of the `jobs_run_all` trace: submit then wait, job by
job. -/
def submitWaitSeq : List String → List JobEvent
  | [] => []
  | j :: rest => JobEvent.submit j :: JobEvent.wait j :: submitWaitSeq rest

theorem jobs_run_all_foldl (jobs : List String) (acc : List JobEvent) :
    jobs.foldl (fun trace j => trace ++ [JobEvent.submit j, JobEvent.wait j]) acc =
      acc ++ submitWaitSeq jobs := by
  induction jobs generalizing acc with
  | nil => simp [submitWaitSeq]
  | cons j rest ih =>
    simp only [List.foldl_cons, submitWaitSeq, ih, List.append_assoc,
      List.cons_append, List.nil_append]

theorem jobs_run_all_eq (jobs : List String) :
    jobs_run_all jobs = submitWaitSeq jobs := by
  unfold jobs_run_all
  simpa using jobs_run_all_foldl jobs []

theorem submitWaitSeq_getElem (jobs : List String) (i : Nat) :
    (submitWaitSeq jobs)[2 * i]? = (jobs[i]?).map JobEvent.submit ∧
      (submitWaitSeq jobs)[2 * i + 1]? = (jobs[i]?).map JobEvent.wait := by
  induction jobs generalizing i with
  | nil => simp [submitWaitSeq]
  | cons j rest ih =>
    cases i with
    | zero => simp [submitWaitSeq]
    | succ k =>
      have h2 : 2 * (k + 1) = (2 * k + 1) + 1 := by omega
      constructor
      · rw [h2]
        simp only [submitWaitSeq, List.getElem?_cons_succ]
        exact (ih k).1
      · rw [h2]
        simp only [submitWaitSeq, List.getElem?_cons_succ]
        exact (ih k).2

theorem submitWaitSeq_count_submit (jobs : List String) (j : String) :
    (submitWaitSeq jobs).count (JobEvent.submit j) = jobs.count j := by
  induction jobs with
  | nil => simp [submitWaitSeq]
  | cons j2 rest ih =>
    simp only [submitWaitSeq, List.count_cons, ih, beq_iff_eq]
    have hw : (JobEvent.wait j2 == JobEvent.submit j) = false := by
      simp [BEq.beq]
    have hs : (JobEvent.submit j2 == JobEvent.submit j) = (j2 == j) := by
      by_cases h : j2 = j
      · simp [h]
      · simp [BEq.beq, h]
    simp [List.count_cons, hw, hs, beq_iff_eq]

theorem submitWaitSeq_pending (jobs : List String) (p : List JobEvent)
    (h : p <+: submitWaitSeq jobs) :
    p.countP JobEvent.isWait ≤ p.countP JobEvent.isSubmit ∧
      p.countP JobEvent.isSubmit ≤ p.countP JobEvent.isWait + 1 := by
  induction jobs generalizing p with
  | nil =>
    rw [submitWaitSeq, List.prefix_nil] at h
    simp [h]
  | cons j rest ih =>
    rw [submitWaitSeq] at h
    rcases List.prefix_cons_iff.mp h with h0 | ⟨q, hq, hq2⟩
    · simp [h0]
    · rcases List.prefix_cons_iff.mp hq2 with h1 | ⟨r, hr, hr2⟩
      · subst hq h1
        simp [List.countP_cons, JobEvent.isSubmit, JobEvent.isWait]
      · subst hq hr
        have := ih r hr2
        simp only [List.countP_cons, JobEvent.isSubmit, JobEvent.isWait]
        simp only [if_true, if_false, cond_true, cond_false]
        omega

/-! ### Helper lemmas on the job-creation fold -/

theorem owStep_models (s : Mdb × List String) (k : String) :
    (owStep s k).1.models = s.1.models := rfl

theorem mem_addJob_of_mem (jobs : List String) (x nm : String) (h : x ∈ jobs) :
    x ∈ addJob jobs nm := by
  unfold addJob
  split
  · exact h
  · exact List.mem_append_left _ h

theorem mem_addJob_self (jobs : List String) (nm : String) : nm ∈ addJob jobs nm := by
  unfold addJob
  split
  · assumption
  · exact List.mem_append_right _ (by simp)

theorem ow_foldl_models (l : List String) (s : Mdb × List String) :
    (l.foldl owStep s).1.models = s.1.models := by
  induction l generalizing s with
  | nil => rfl
  | cons k t ih => rw [List.foldl_cons, ih, owStep_models]

theorem ow_foldl_jobs_mono (l : List String) (s : Mdb × List String) (x : String)
    (h : x ∈ s.1.jobs) : x ∈ (l.foldl owStep s).1.jobs := by
  induction l generalizing s with
  | nil => exact h
  | cons k t ih =>
    rw [List.foldl_cons]
    exact ih _ (mem_addJob_of_mem _ _ _ h)

theorem ow_foldl_trace_mono (l : List String) (s : Mdb × List String) (x : String)
    (h : x ∈ s.2) : x ∈ (l.foldl owStep s).2 := by
  induction l generalizing s with
  | nil => exact h
  | cons k t ih =>
    rw [List.foldl_cons]
    exact ih _ (List.mem_append_left _ h)

theorem ow_foldl_adds (l : List String) (s : Mdb × List String) (k : String)
    (h : k ∈ l) : underscore_name k ∈ (l.foldl owStep s).1.jobs := by
  induction l generalizing s with
  | nil => cases h
  | cons k2 t ih =>
    rw [List.foldl_cons]
    rcases List.mem_cons.mp h with h0 | h0
    · subst h0
      exact ow_foldl_jobs_mono _ _ _ (mem_addJob_self _ _)
    · exact ih _ h0

theorem ow_foldl_traces (l : List String) (s : Mdb × List String) (k : String)
    (h : k ∈ l) : underscore_name k ∈ (l.foldl owStep s).2 := by
  induction l generalizing s with
  | nil => cases h
  | cons k2 t ih =>
    rw [List.foldl_cons]
    rcases List.mem_cons.mp h with h0 | h0
    · subst h0
      exact ow_foldl_trace_mono _ _ _ (List.mem_append_right _ (by simp))
    · exact ih _ h0

theorem overwrite_models (st : Mdb × List String) :
    (jobs_create_4all_models_with_overwrite st).1.models = st.1.models :=
  ow_foldl_models _ _

theorem overwrite_jobs_mono (st : Mdb × List String) (x : String)
    (h : x ∈ st.1.jobs) :
    x ∈ (jobs_create_4all_models_with_overwrite st).1.jobs :=
  ow_foldl_jobs_mono _ _ _ h

theorem overwrite_adds (st : Mdb × List String) (k : String) (h : k ∈ st.1.models) :
    underscore_name k ∈ (jobs_create_4all_models_with_overwrite st).1.jobs :=
  ow_foldl_adds _ _ _ h

theorem overwrite_traces (st : Mdb × List String) (k : String)
    (h : k ∈ st.1.models) :
    underscore_name k ∈ (jobs_create_4all_models_with_overwrite st).2 :=
  ow_foldl_traces _ _ _ h

theorem overwrite_trace_mono (st : Mdb × List String) (x : String) (h : x ∈ st.2) :
    x ∈ (jobs_create_4all_models_with_overwrite st).2 :=
  ow_foldl_trace_mono _ _ _ h

theorem fourStep_models (st : Mdb × List String) (k : String) :
    (fourStep st k).1.models = st.1.models := by
  unfold fourStep
  split
  · rfl
  · exact overwrite_models st

theorem fourStep_jobs_mono (st : Mdb × List String) (k : String) (x : String)
    (h : x ∈ st.1.jobs) : x ∈ (fourStep st k).1.jobs := by
  unfold fourStep
  split
  · exact h
  · exact overwrite_jobs_mono st x h

theorem fourStep_trace_mono (st : Mdb × List String) (k : String) (x : String)
    (h : x ∈ st.2) : x ∈ (fourStep st k).2 := by
  unfold fourStep
  split
  · exact h
  · exact overwrite_trace_mono st x h

theorem four_foldl_models (l : List String) (s : Mdb × List String) :
    (l.foldl fourStep s).1.models = s.1.models := by
  induction l generalizing s with
  | nil => rfl
  | cons k t ih => rw [List.foldl_cons, ih, fourStep_models]

theorem four_foldl_jobs_mono (l : List String) (s : Mdb × List String) (x : String)
    (h : x ∈ s.1.jobs) : x ∈ (l.foldl fourStep s).1.jobs := by
  induction l generalizing s with
  | nil => exact h
  | cons k t ih =>
    rw [List.foldl_cons]
    exact ih _ (fourStep_jobs_mono _ _ _ h)

theorem four_foldl_trace_mono (l : List String) (s : Mdb × List String) (x : String)
    (h : x ∈ s.2) : x ∈ (l.foldl fourStep s).2 := by
  induction l generalizing s with
  | nil => exact h
  | cons k t ih =>
    rw [List.foldl_cons]
    exact ih _ (fourStep_trace_mono _ _ _ h)

theorem four_foldl_post (l : List String) (s : Mdb × List String)
    (hsub : ∀ k ∈ l, k ∈ s.1.models) (k : String) (hk : k ∈ l) :
    underscore_name k ∈ (l.foldl fourStep s).1.jobs := by
  induction l generalizing s with
  | nil => cases hk
  | cons k2 t ih =>
    rw [List.foldl_cons]
    have hstep : ∀ k3 ∈ t, k3 ∈ (fourStep s k2).1.models := by
      intro k3 hk3
      rw [fourStep_models]
      exact hsub k3 (by simp [hk3])
    rcases List.mem_cons.mp hk with h0 | h0
    · subst h0
      by_cases hin : underscore_name k ∈ s.1.jobs
      · apply four_foldl_jobs_mono
        unfold fourStep
        rw [if_pos hin]
        exact hin
      · apply four_foldl_jobs_mono
        unfold fourStep
        rw [if_neg hin]
        exact overwrite_adds s k (hsub k (by simp))
    · exact ih _ hstep h0

theorem four_foldl_id (l : List String) (s : Mdb × List String)
    (hall : ∀ k ∈ l, underscore_name k ∈ s.1.jobs) : l.foldl fourStep s = s := by
  induction l with
  | nil => rfl
  | cons k t ih =>
    rw [List.foldl_cons]
    have hstep : fourStep s k = s := by
      unfold fourStep
      rw [if_pos (hall k (by simp))]
    rw [hstep]
    exact ih (fun k2 hk2 => hall k2 (by simp [hk2]))

theorem four_foldl_fires (l : List String) (s : Mdb × List String)
    (hmiss : ∃ k ∈ l, underscore_name k ∉ s.1.jobs) (k2 : String)
    (hk2 : k2 ∈ s.1.models) :
    underscore_name k2 ∈ (l.foldl fourStep s).2 := by
  induction l generalizing s with
  | nil =>
    rcases hmiss with ⟨k, hk, _⟩
    cases hk
  | cons k3 t ih =>
    rw [List.foldl_cons]
    by_cases hin : underscore_name k3 ∈ s.1.jobs
    · have hstep : fourStep s k3 = s := by
        unfold fourStep
        rw [if_pos hin]
      rw [hstep]
      rcases hmiss with ⟨k, hk, hknot⟩
      rcases List.mem_cons.mp hk with h0 | h0
      · subst h0
        exact absurd hin hknot
      · exact ih s ⟨k, h0, hknot⟩ hk2
    · have hstep : fourStep s k3 = jobs_create_4all_models_with_overwrite s := by
        unfold fourStep
        rw [if_neg hin]
      rw [hstep]
      exact four_foldl_trace_mono _ _ _ (overwrite_traces s k2 hk2)

/-! ### Helper lemma on the log-status fold -/

theorem log_status_foldl (l : List LogFile) (b : Bool) :
    l.foldl
      (fun st f =>
        if last_token (f.lines.getLastD "") ≠ "COMPLETED\n" then false else st) b =
      (b && l.all (fun f => last_token (f.lines.getLastD "") == "COMPLETED\n")) := by
  induction l generalizing b with
  | nil => simp
  | cons f t ih =>
    rw [List.foldl_cons, ih]
    by_cases h : last_token (f.lines.getLastD "") = "COMPLETED\n"
    · have h2 := h
      rw [List.getLastD_eq_getLast?] at h2
      rw [if_neg (by simp [h2])]
      have hok : (last_token (f.lines.getLastD "") == "COMPLETED\n") = true := by
        simp [h2]
      rw [List.all_cons, hok, Bool.true_and]
    · have h2 := h
      rw [List.getLastD_eq_getLast?] at h2
      rw [if_pos (by simp [h2])]
      have hok : (last_token (f.lines.getLastD "") == "COMPLETED\n") = false := by
        simp [h2]
      rw [List.all_cons, hok, Bool.false_and, Bool.and_false]

/-! ### Helper lemmas on the assembly-line search -/

theorem assembly_index_none (lines : List String)
    (h : ∀ l ∈ lines, ¬ hasSub "** ASSEMBLY" l) : assembly_index lines = none := by
  induction lines with
  | nil => rfl
  | cons l ls ih =>
    rw [assembly_index, if_neg, ih (fun l2 hl2 => h l2 (by simp [hl2]))]
    rfl
    rw [hasSubB_true_iff]
    exact h l (by simp)

theorem assembly_index_spec (lines : List String) (n : Nat)
    (h : assembly_index lines = some n) :
    (∀ l ∈ lines.take n, ¬ hasSub "** ASSEMBLY" l) ∧
      ∃ l, lines[n]? = some l ∧ hasSub "** ASSEMBLY" l := by
  induction lines generalizing n with
  | nil => cases h
  | cons l ls ih =>
    rw [assembly_index] at h
    by_cases hl : hasSubB "** ASSEMBLY" l = true
    · rw [if_pos hl] at h
      cases h
      exact ⟨by simp, l, by simp, (hasSubB_true_iff _ _).mp hl⟩
    · rw [if_neg hl] at h
      cases hm : assembly_index ls with
      | none => rw [hm] at h; cases h
      | some m =>
        rw [hm] at h
        cases h
        rcases ih m hm with ⟨h1, l2, h2, h3⟩
        refine ⟨?_, l2, by simpa using h2, h3⟩
        intro l3 hl3
        have hl3b : l3 ∈ l :: List.take m ls := by
          simpa [List.take_succ_cons] using hl3
        rcases List.mem_cons.mp hl3b with h4 | h4
        · subst h4
          intro hc
          exact hl ((hasSubB_true_iff _ _).mpr hc)
        · exact h1 _ h4

theorem assembly_index_isSome (lines : List String)
    (h : ∃ l ∈ lines, hasSub "** ASSEMBLY" l) :
    ∃ n, assembly_index lines = some n := by
  induction lines with
  | nil =>
    rcases h with ⟨l, hl, _⟩
    cases hl
  | cons l ls ih =>
    rw [assembly_index]
    by_cases hl : hasSubB "** ASSEMBLY" l = true
    · exact ⟨0, by rw [if_pos hl]⟩
    · rcases h with ⟨l2, hl2, h2⟩
      rcases List.mem_cons.mp hl2 with h3 | h3
      · subst h3
        exact absurd ((hasSubB_true_iff _ _).mpr h2) hl
      · rcases ih ⟨l2, h3, h2⟩ with ⟨m, hm⟩
        exact ⟨m + 1, by rw [if_neg hl, hm]; rfl⟩

/-! ### Claim theorems -/

/-- C5: `modify_inp_file` requires a line containing `** ASSEMBLY`; under
that precondition the out-of-range `[0]` indexing is unreachable and the
insertion places one `* PARAMETER` line followed by one `par=100` line per
parameter immediately before the first such line; with no such line, the
IndexError branch is reached (the function fails, `none`). -/
theorem modify_inp_file_assembly_precondition (parameters_list lines : List String) :
    ((∀ l ∈ lines, ¬ hasSub "** ASSEMBLY" l) →
      modify_inp_file parameters_list lines = none) ∧
    ((∃ l ∈ lines, hasSub "** ASSEMBLY" l) → ∃ n, assembly_index lines = some n) ∧
    (∀ n, assembly_index lines = some n →
      (∀ l ∈ lines.take n, ¬ hasSub "** ASSEMBLY" l) ∧
      (∃ l, lines[n]? = some l ∧ hasSub "** ASSEMBLY" l) ∧
      modify_inp_insert parameters_list lines =
        some (lines.take n ++ ["* PARAMETER\n"] ++
          parameters_list.map (fun par => par ++ "=100\n") ++ lines.drop n)) := by
  refine ⟨?_, assembly_index_isSome lines, ?_⟩
  · intro h
    unfold modify_inp_file modify_inp_insert
    rw [assembly_index_none lines h]
    rfl
  · intro n hn
    rcases assembly_index_spec lines n hn with ⟨h1, h2⟩
    refine ⟨h1, h2, ?_⟩
    simp only [modify_inp_insert, hn, par_lines, List.append_assoc]

/-- Witness for C5 at a concrete inp deck with and without an assembly
line. -/
theorem modify_inp_file_assembly_precondition_witness :
    modify_inp_file ["E"] ["*Heading\n"] = none ∧
    assembly_index ["*Heading\n", "** ASSEMBLY\n"] = some 1 ∧
    modify_inp_insert ["E"] ["*Heading\n", "** ASSEMBLY\n"] =
      some ["*Heading\n", "* PARAMETER\n", "E=100\n", "** ASSEMBLY\n"] := by
  refine ⟨(modify_inp_file_assembly_precondition ["E"] ["*Heading\n"]).1 (by decide),
    by decide, ?_⟩
  have h := ((modify_inp_file_assembly_precondition ["E"]
    ["*Heading\n", "** ASSEMBLY\n"]).2.2 1 (by decide)).2.2
  simpa using h

/-- Whenever `modify_psf_4_run_lines` writes an output file, the appended
`study.execute` line is one of its lines. -/
theorem exec_mem_modify_psf (lines : List String) (b : Bool) (cpu : Int)
    (out : List String) (h : modify_psf_4_run_lines lines b cpu = some out) :
    execution_line cpu ∈ out := by
  unfold modify_psf_4_run_lines at h
  dsimp only at h
  split at h
  all_goals first
  | (injection h with h2
     subst h2
     simp)
  | cases h

/-- C9: `create_parametric_files` caps the cpu count at
`multiprocessing.cpu_count()`: the resolved value never exceeds the machine
count, an omitted or too-large configured value resolves to exactly the
machine count, and the resolved value is the one embedded in the
`study.execute` line of the psf that the pipeline writes. -/
theorem create_parametric_files_cpu_ceiling (config_cpu : Option Int)
    (max_cpu_no : Int) :
    resolve_cpu_numbers config_cpu max_cpu_no ≤ max_cpu_no ∧
    (config_cpu = none → resolve_cpu_numbers config_cpu max_cpu_no = max_cpu_no) ∧
    (∀ v, config_cpu = some v → v > max_cpu_no →
      resolve_cpu_numbers config_cpu max_cpu_no = max_cpu_no) ∧
    (∀ v, config_cpu = some v → v ≤ max_cpu_no →
      resolve_cpu_numbers config_cpu max_cpu_no = v) ∧
    hasSub ("cpus=" ++ toString (resolve_cpu_numbers config_cpu max_cpu_no))
      (execution_line (resolve_cpu_numbers config_cpu max_cpu_no)) ∧
    (∀ env cfg tr ol op, create_parametric_files env cfg = some (tr, ol, op) →
      cfg.cpu_numbers = config_cpu → env.max_cpu_no = max_cpu_no →
      execution_line (resolve_cpu_numbers config_cpu max_cpu_no) ∈ ol) := by
  refine ⟨?_, ?_, ?_, ?_, hasSub_cpus _, ?_⟩
  · cases config_cpu with
    | none => exact le_refl _
    | some v =>
      show (if v > max_cpu_no then max_cpu_no else v) ≤ max_cpu_no
      by_cases h : v > max_cpu_no
      · rw [if_pos h]
      · rw [if_neg h]
        omega
  · intro h
    rw [h]
    rfl
  · intro v hv h
    rw [hv]
    show (if v > max_cpu_no then max_cpu_no else v) = max_cpu_no
    rw [if_pos h]
  · intro v hv h
    rw [hv]
    show (if v > max_cpu_no then max_cpu_no else v) = v
    rw [if_neg (by omega)]
  · intro env cfg tr ol op h hcpu hmax
    subst hcpu hmax
    unfold create_parametric_files at h
    dsimp only at h
    split at h
    · cases h
    · split at h
      · cases h
      · split at h
        · cases h
        · split at h
          · cases h
          · rename_i out_lines heq
            injection h with h1
            have hol : out_lines = ol := congrArg (fun t => t.2.1) h1
            subst hol
            exact exec_mem_modify_psf _ _ _ _ heq

/-- Witness for C9 at a configured value above and below a machine count of
8 cpus, and at an omitted value, plus a run of the whole pipeline. -/
theorem create_parametric_files_cpu_ceiling_witness :
    resolve_cpu_numbers (some 99) 8 ≤ 8 ∧
    resolve_cpu_numbers none 8 = 8 ∧
    resolve_cpu_numbers (some 99) 8 = 8 ∧
    resolve_cpu_numbers (some 4) 8 = 4 ∧
    (∀ tr ol op,
      create_parametric_files ⟨"C:", "study.cfg", 8, ["** ASSEMBLY\n"]⟩
        ⟨["E"], [1], [0], [5], 0, some 4, none, none⟩ = some (tr, ol, op) →
      execution_line (resolve_cpu_numbers (some 4) 8) ∈ ol) := by
  refine ⟨(create_parametric_files_cpu_ceiling (some 99) 8).1,
    (create_parametric_files_cpu_ceiling none 8).2.1 rfl,
    (create_parametric_files_cpu_ceiling (some 99) 8).2.2.1 99 rfl (by decide),
    (create_parametric_files_cpu_ceiling (some 4) 8).2.2.2.1 4 rfl (by decide),
    ?_⟩
  intro tr ol op h
  exact (create_parametric_files_cpu_ceiling (some 4) 8).2.2.2.2.2
    _ _ tr ol op h rfl rfl

/-- C2: each call of `run_abaqus_subprocess` launches exactly one Abaqus
subprocess and blocks on `communicate` until it terminates, with no relaunch
and no dependence of the subprocess trace on the captured output; each call
of `run_psf` on a psf or cfg input likewise launches exactly one subprocess
followed by the blocking wait. -/
theorem run_abaqus_single_blocking_subprocess (script : String)
    (database_folder : Option String) (gui : Bool) (cwd : String)
    (sub_stdout : List String) (input_var cfg_af : String) :
    (run_abaqus_subprocess script database_folder gui cwd sub_stdout).1 =
      [ProcEvent.popen (subprocess_cmd script database_folder gui),
        ProcEvent.communicate] ∧
    (run_abaqus_subprocess script database_folder gui cwd sub_stdout).1.countP
      ProcEvent.isPopen = 1 ∧
    (∀ other_stdout, (run_abaqus_subprocess script database_folder gui cwd
        other_stdout).1 =
      (run_abaqus_subprocess script database_folder gui cwd sub_stdout).1) ∧
    (pSuffix input_var = ".psf" ∨ pSuffix input_var = ".cfg" →
      ∃ f, run_psf input_var cfg_af =
        some [ProcEvent.popen ("abaqus script=" ++ f), ProcEvent.communicate]) := by
  refine ⟨rfl, rfl, fun o => rfl, ?_⟩
  intro h
  unfold run_psf
  rcases h with h | h
  · rw [h, if_pos rfl]
    exact ⟨input_var, rfl⟩
  · rw [h]
    rw [if_neg (by decide), if_pos rfl]
    exact ⟨_, rfl⟩

/-- Witness for C2 at a concrete script and at psf and cfg inputs. -/
theorem run_abaqus_single_blocking_subprocess_witness :
    (run_abaqus_subprocess "s.py" none false "C:" ["a", "b c"]).1.countP
      ProcEvent.isPopen = 1 ∧
    (∃ f, run_psf "a.psf" "C:" =
      some [ProcEvent.popen ("abaqus script=" ++ f), ProcEvent.communicate]) ∧
    (∃ f, run_psf "a.cfg" "C:" =
      some [ProcEvent.popen ("abaqus script=" ++ f), ProcEvent.communicate]) := by
  refine ⟨(run_abaqus_single_blocking_subprocess "s.py" none false "C:"
      ["a", "b c"] "a.psf" "C:").2.1,
    (run_abaqus_single_blocking_subprocess "s.py" none false "C:"
      ["a", "b c"] "a.psf" "C:").2.2.2 (Or.inl (by decide)),
    (run_abaqus_single_blocking_subprocess "s.py" none false "C:"
      ["a", "b c"] "a.cfg" "C:").2.2.2 (Or.inr (by decide))⟩

theorem submitWaitSeq_length (jobs : List String) :
    (submitWaitSeq jobs).length = 2 * jobs.length := by
  induction jobs with
  | nil => rfl
  | cons j rest ih =>
    rw [submitWaitSeq]
    simp only [List.length_cons, ih]
    omega

/-- C3: `jobs_run_all` submits every job of the database exactly once and
strictly sequentially: event `2i` of the trace is the submission of job `i`
and event `2i + 1` is the wait for its completion, so in every prefix of the
trace at most one submitted job is still unwaited-for, and no two jobs ever
run concurrently. -/
theorem jobs_run_all_sequential (jobs : List String) :
    (jobs_run_all jobs).length = 2 * jobs.length ∧
    (∀ i, (jobs_run_all jobs)[2 * i]? = (jobs[i]?).map JobEvent.submit ∧
      (jobs_run_all jobs)[2 * i + 1]? = (jobs[i]?).map JobEvent.wait) ∧
    (jobs.Nodup → ∀ j ∈ jobs,
      (jobs_run_all jobs).count (JobEvent.submit j) = 1) ∧
    (∀ p, p <+: jobs_run_all jobs →
      p.countP JobEvent.isWait ≤ p.countP JobEvent.isSubmit ∧
      p.countP JobEvent.isSubmit ≤ p.countP JobEvent.isWait + 1) := by
  rw [jobs_run_all_eq]
  refine ⟨submitWaitSeq_length jobs, submitWaitSeq_getElem jobs, ?_, 
    submitWaitSeq_pending jobs⟩
  intro hnd j hj
  rw [submitWaitSeq_count_submit]
  exact List.count_eq_one_of_mem hnd hj

/-- Witness for C3 on a two-job database. -/
theorem jobs_run_all_sequential_witness :
    (jobs_run_all ["a", "b"]).length = 2 * 2 ∧
    (jobs_run_all ["a", "b"])[2 * 1]? = some (JobEvent.submit "b") ∧
    ((["a", "b"] : List String).Nodup →
      (jobs_run_all ["a", "b"]).count (JobEvent.submit "a") = 1) ∧
    ([JobEvent.submit "a"].countP JobEvent.isSubmit ≤
      [JobEvent.submit "a"].countP JobEvent.isWait + 1) := by
  refine ⟨(jobs_run_all_sequential ["a", "b"]).1, ?_,
    fun h => (jobs_run_all_sequential ["a", "b"]).2.2.1 h "a" (by decide), ?_⟩
  · have h := ((jobs_run_all_sequential ["a", "b"]).2.1 1).1
    simpa using h
  · exact ((jobs_run_all_sequential ["a", "b"]).2.2.2 [JobEvent.submit "a"]
      (by decide)).2

/-- C10: after `jobs_create_4all_models` every model of the database has a
job named after it with blank spaces replaced by underscores; when every
model already had such a job the call leaves the database untouched and
creates nothing, and when at least one model lacked one, a job is (re)created
for every model of the database. -/
theorem jobs_create_4all_models_frame (m : Mdb) :
    (∀ k ∈ m.models, underscore_name k ∈ (jobs_create_4all_models m).1.jobs) ∧
    (jobs_create_4all_models m).1.models = m.models ∧
    ((∀ k ∈ m.models, underscore_name k ∈ m.jobs) →
      jobs_create_4all_models m = (m, [])) ∧
    ((∃ k ∈ m.models, underscore_name k ∉ m.jobs) →
      ∀ k ∈ m.models, underscore_name k ∈ (jobs_create_4all_models m).2) := by
  refine ⟨?_, four_foldl_models _ _, fun hall => four_foldl_id m.models (m, []) hall, ?_⟩
  · intro k hk
    exact four_foldl_post m.models (m, []) (fun k2 hk2 => hk2) k hk
  · intro hmiss k hk
    exact four_foldl_fires m.models (m, []) hmiss k hk

/-- Witness for C10 on a database out of sync (one model without a job) and
on one in sync. -/
theorem jobs_create_4all_models_frame_witness :
    (∀ k ∈ (["a b", "c"] : List String),
      underscore_name k ∈ (jobs_create_4all_models ⟨["a b", "c"], ["a_b"]⟩).1.jobs) ∧
    ((∀ k ∈ (["a b"] : List String), underscore_name k ∈ (["a_b"] : List String)) →
      jobs_create_4all_models ⟨["a b"], ["a_b"]⟩ = (⟨["a b"], ["a_b"]⟩, [])) ∧
    ((∃ k ∈ (["a b", "c"] : List String),
        underscore_name k ∉ (["a_b"] : List String)) →
      ∀ k ∈ (["a b", "c"] : List String),
        underscore_name k ∈ (jobs_create_4all_models ⟨["a b", "c"], ["a_b"]⟩).2) := by
  exact ⟨(jobs_create_4all_models_frame ⟨["a b", "c"], ["a_b"]⟩).1,
    (jobs_create_4all_models_frame ⟨["a b"], ["a_b"]⟩).2.2.1,
    (jobs_create_4all_models_frame ⟨["a b", "c"], ["a_b"]⟩).2.2.2⟩

/-- C7: under the precondition that no log file is empty,
`parametric_check_odb_files` leaves the folder contents untouched and returns
True exactly when the numbers of the log file names are consecutive with none
missing and the last space-separated token of the last line of every log file
is the COMPLETED keyword. -/
theorem parametric_check_odb_files_iff (files : List LogFile)
    (hne : ∀ f ∈ files, f.lines ≠ []) :
    (parametric_check_odb_files files).2 = files ∧
    ∃ b, (parametric_check_odb_files files).1 = some b ∧
      (b = true ↔
        check_array_consecutiveness
          ((sort_strings_by_digit (files.map (fun f => f.name))).map
            extract_number_from_str) = true ∧
        ∀ f ∈ files, last_token (f.lines.getLastD "") = "COMPLETED\n") := by
  have hany : files.any (fun f => f.lines.isEmpty) = false := by
    rw [List.any_eq_false]
    intro f hf
    simp only [List.isEmpty_iff]
    exact hne f hf
  unfold parametric_check_odb_files
  rw [if_neg (by rw [hany]; exact Bool.false_ne_true)]
  refine ⟨rfl, _, rfl, ?_⟩
  rw [log_status_foldl]
  rw [Bool.and_comm, Bool.and_eq_true, List.all_eq_true]
  constructor
  · rintro ⟨h1, h2⟩
    exact ⟨h2, fun f hf => by simpa using h1 f hf⟩
  · rintro ⟨h1, h2⟩
    exact ⟨fun f hf => by simpa using h2 f hf, h1⟩

/-- Witness for C7 on a folder with two complete, consecutively numbered
logs. -/
theorem parametric_check_odb_files_iff_witness :
    (parametric_check_odb_files
      [⟨"j1.log", ["x COMPLETED\n"]⟩, ⟨"j2.log", ["y COMPLETED\n"]⟩]).2 =
      [⟨"j1.log", ["x COMPLETED\n"]⟩, ⟨"j2.log", ["y COMPLETED\n"]⟩] ∧
    ∃ b, (parametric_check_odb_files
      [⟨"j1.log", ["x COMPLETED\n"]⟩, ⟨"j2.log", ["y COMPLETED\n"]⟩]).1 = some b ∧
      (b = true ↔
        check_array_consecutiveness
          ((sort_strings_by_digit
            (([⟨"j1.log", ["x COMPLETED\n"]⟩,
               ⟨"j2.log", ["y COMPLETED\n"]⟩] : List LogFile).map
              (fun f => f.name))).map extract_number_from_str) = true ∧
        ∀ f ∈ ([⟨"j1.log", ["x COMPLETED\n"]⟩,
                ⟨"j2.log", ["y COMPLETED\n"]⟩] : List LogFile),
          last_token (f.lines.getLastD "") = "COMPLETED\n") :=
  parametric_check_odb_files_iff
    [⟨"j1.log", ["x COMPLETED\n"]⟩, ⟨"j2.log", ["y COMPLETED\n"]⟩] (by decide)

/-- C8: `build_parametric_csv` supports exactly the one-parameter studies:
with a single parameter the csv rows carry the uniform sample vector plus the
reference values in ascending order, numbered consecutively from 1 in the
MODEL_NO column, and with any other number of parameters no data-frame is
built and the function fails (the uncaught NameError). -/
theorem build_parametric_csv_single_parameter (parameters_list : List String)
    (max_values min_values normal_values : List ℚ) (sample_size : Nat) :
    (∀ p0 mn mnt mx mxt, parameters_list = [p0] → min_values = mn :: mnt →
      max_values = mx :: mxt →
      ∃ rows, build_parametric_csv_rows parameters_list max_values min_values
          normal_values sample_size = some rows ∧
        rows.map Prod.fst = List.range' 1 rows.length ∧
        (rows.map Prod.snd).Sorted (· ≤ ·) ∧
        (rows.map Prod.snd).Perm
          (linspace mn mx sample_size ++ normal_values)) ∧
    (parameters_list.length ≠ 1 →
      build_parametric_csv_rows parameters_list max_values min_values
        normal_values sample_size = none) := by
  constructor
  · intro p0 mn mnt mx mxt hp hmn hmx
    subst hp hmn hmx
    refine ⟨_, rfl, ?_, ?_, ?_⟩
    · rw [List.map_fst_zip _ _ (by rw [List.length_range'])]
      congr 1
      rw [List.length_zip, List.length_range']
      omega
    · rw [List.map_snd_zip _ _ (by rw [List.length_range'])]
      exact List.sorted_insertionSort _ _
    · rw [List.map_snd_zip _ _ (by rw [List.length_range'])]
      exact List.perm_insertionSort _ _
  · intro h
    cases parameters_list with
    | nil => rfl
    | cons p t =>
      cases t with
      | nil => simp at h
      | cons q t2 => rfl

/-- Witness for C8 at a one-parameter study and at an empty parameter
list. -/
theorem build_parametric_csv_single_parameter_witness :
    (∃ rows, build_parametric_csv_rows ["E"] [1] [0] [5] 0 = some rows ∧
      rows.map Prod.fst = List.range' 1 rows.length ∧
      (rows.map Prod.snd).Sorted (· ≤ ·) ∧
      (rows.map Prod.snd).Perm (linspace 0 1 0 ++ [5])) ∧
    build_parametric_csv_rows [] [1] [0] [5] 0 = none := by
  exact ⟨(build_parametric_csv_single_parameter ["E"] [1] [0] [5] 0).1
      "E" 0 [] 1 [] rfl rfl rfl,
    (build_parametric_csv_single_parameter [] [1] [0] [5] 0).2 (by decide)⟩

/-- C4: `summarize_fea_output` aggregates without computing: a dataset for an
output-variable key holds exactly the arrays of that name found in the npz
files, with values unchanged and with the csv attributes of the model the npz
came from (indexed by MODEL_NO), and the function returns the config path
with its suffix replaced by `.hdf5`. -/
theorem summarize_fea_output_aggregation (α : Type) (config_file : String)
    (npz_files : List (NpzFile α)) (csv : List (Nat × List (String × String))) :
    (summarize_fea_output α config_file npz_files csv).2 =
      pWithSuffix config_file ".hdf5" ∧
    (∀ f ∈ npz_files, ∀ va ∈ f.arrays,
      (va.2, attrs_for csv f.model_no) ∈
        (summarize_fea_output α config_file npz_files csv).1 va.1) ∧
    (∀ var x, x ∈ (summarize_fea_output α config_file npz_files csv).1 var →
      ∃ f ∈ npz_files, (var, x.1) ∈ f.arrays ∧ x.2 = attrs_for csv f.model_no) := by
  refine ⟨rfl, ?_, ?_⟩
  · intro f hf va hva
    show (va.2, attrs_for csv f.model_no) ∈ hdf5_group α npz_files csv va.1
    unfold hdf5_group
    refine List.mem_filterMap.mpr
      ⟨(va.1, va.2, attrs_for csv f.model_no), ?_, by simp⟩
    unfold hdf5_datasets
    exact List.mem_flatMap.mpr ⟨f, hf, List.mem_map.mpr ⟨va, hva, rfl⟩⟩
  · intro var x hx
    replace hx : x ∈ hdf5_group α npz_files csv var := hx
    unfold hdf5_group at hx
    rcases List.mem_filterMap.mp hx with ⟨d, hd, heq⟩
    have hvar : d.1 = var ∧ d.2 = x := by
      by_cases hc : d.1 = var
      · rw [if_pos hc] at heq
        exact ⟨hc, Option.some_injective _ heq⟩
      · rw [if_neg hc] at heq
        cases heq
    unfold hdf5_datasets at hd
    rcases List.mem_flatMap.mp hd with ⟨f, hf, hdf⟩
    rcases List.mem_map.mp hdf with ⟨va, hva, hva2⟩
    refine ⟨f, hf, ?_, ?_⟩
    · have h1 : va.1 = var := by rw [← hvar.1, ← hva2]
      have h2 : va.2 = x.1 := by rw [← hvar.2, ← hva2]
      rw [← h1, ← h2]
      simpa using hva
    · rw [← hvar.2, ← hva2]

/-- Witness for C4 on one npz file with one array. -/
theorem summarize_fea_output_aggregation_witness :
    (summarize_fea_output Nat "study.cfg" [⟨1, [("U1", 7)]⟩]
      [(1, [("E", "0.5")])]).2 = pWithSuffix "study.cfg" ".hdf5" ∧
    ((7 : Nat), attrs_for [(1, [("E", "0.5")])] 1) ∈
      (summarize_fea_output Nat "study.cfg" [⟨1, [("U1", 7)]⟩]
        [(1, [("E", "0.5")])]).1 "U1" ∧
    (∀ x, x ∈ (summarize_fea_output Nat "study.cfg" [⟨1, [("U1", 7)]⟩]
        [(1, [("E", "0.5")])]).1 "U1" →
      ∃ f ∈ ([⟨1, [("U1", 7)]⟩] : List (NpzFile Nat)), ("U1", x.1) ∈ f.arrays ∧
        x.2 = attrs_for [(1, [("E", "0.5")])] f.model_no) := by
  refine ⟨(summarize_fea_output_aggregation Nat "study.cfg" [⟨1, [("U1", 7)]⟩]
      [(1, [("E", "0.5")])]).1, ?_, ?_⟩
  · exact (summarize_fea_output_aggregation Nat "study.cfg" [⟨1, [("U1", 7)]⟩]
      [(1, [("E", "0.5")])]).2.1 ⟨1, [("U1", 7)]⟩ (by simp) ("U1", 7) (by simp)
  · intro x hx
    exact (summarize_fea_output_aggregation Nat "study.cfg" [⟨1, [("U1", 7)]⟩]
      [(1, [("E", "0.5")])]).2.2 "U1" x hx

/-- C6: on any psf produced by `build_parametric_psf` (whose study name,
analysis folder and parameter list do not accidentally contain the searched
markers), `modify_psf_4_run` writes exactly the os.chdir line (only when an
analysis folder is given), the `parameters = ` line, the `study = ` line and
the appended `study.execute` line carrying `cpus=cpu_numbers`, in that order;
the define, sample, combine and generate command lines of the input psf are
all absent from the output. -/
theorem modify_psf_4_run_keeps_study_definition (af : Option String)
    (sn : String) (ps : List String) (inp : String) (cpu : Int)
    (hchp : ∀ a, af = some a → ¬ hasSub "parameters = " (change_folder_line a sn))
    (hchs : ∀ a, af = some a → ¬ hasSub "study = " (change_folder_line a sn))
    (hwp : ¬ hasSub "parameters = " (with_open_line sn))
    (hws : ¬ hasSub "study = " (with_open_line sn))
    (hps : ¬ hasSub "study = " (parameters_line ps)) :
    modify_psf_4_run_lines (build_parametric_psf_lines af sn ps inp) af.isSome cpu =
      some ((match af with
             | none => []
             | some a => [change_folder_line a sn]) ++
        [parameters_line ps, study_line, execution_line cpu]) ∧
    hasSub ("cpus=" ++ toString cpu) (execution_line cpu) ∧
    (∀ out,
      modify_psf_4_run_lines (build_parametric_psf_lines af sn ps inp)
        af.isSome cpu = some out →
      "    study.define(DISCRETE,par=parameter, domain=domains[parameter])" ∉ out ∧
      "    study.sample(INTERVAL, interval=1, par=parameter)" ∉ out ∧
      "study.combine(TUPLE, name=\x22model\x22)" ∉ out ∧
      ("study.generate(template=\x22" ++ inp ++ "\x22)") ∉ out) := by
  have hmain := modify_psf_on_build af sn ps inp cpu hchp hchs hwp hws hps
  refine ⟨hmain, hasSub_cpus cpu, ?_⟩
  intro out hout
  rw [hmain] at hout
  injection hout with hout
  subst hout
  have hne_d_ch : ∀ a : String,
      "    study.define(DISCRETE,par=parameter, domain=domains[parameter])" ≠
        change_folder_line a sn := by
    intro a
    apply ne_of_data_take 7
    rw [take7_chdir]
    decide
  have hne_d_pl :
      "    study.define(DISCRETE,par=parameter, domain=domains[parameter])" ≠
        parameters_line ps := by
    apply ne_of_data_take 7
    rw [take7_parameters]
    decide
  have hne_d_ex :
      "    study.define(DISCRETE,par=parameter, domain=domains[parameter])" ≠
        execution_line cpu := by
    apply ne_of_data_take 7
    rw [take7_execution]
    decide
  have hne_s_ch : ∀ a : String,
      "    study.sample(INTERVAL, interval=1, par=parameter)" ≠
        change_folder_line a sn := by
    intro a
    apply ne_of_data_take 7
    rw [take7_chdir]
    decide
  have hne_s_pl : "    study.sample(INTERVAL, interval=1, par=parameter)" ≠
      parameters_line ps := by
    apply ne_of_data_take 7
    rw [take7_parameters]
    decide
  have hne_s_ex : "    study.sample(INTERVAL, interval=1, par=parameter)" ≠
      execution_line cpu := by
    apply ne_of_data_take 7
    rw [take7_execution]
    decide
  have hne_c_ch : ∀ a : String,
      "study.combine(TUPLE, name=\x22model\x22)" ≠ change_folder_line a sn := by
    intro a
    apply ne_of_data_take 7
    rw [take7_chdir]
    decide
  have hne_c_pl : "study.combine(TUPLE, name=\x22model\x22)" ≠
      parameters_line ps := by
    apply ne_of_data_take 7
    rw [take7_parameters]
    decide
  have hne_c_ex : "study.combine(TUPLE, name=\x22model\x22)" ≠
      execution_line cpu := by
    apply ne_of_data_take 7
    rw [take7_execution]
    decide
  have hne_g_ch : ∀ a : String,
      ("study.generate(template=\x22" ++ inp ++ "\x22)") ≠
        change_folder_line a sn := by
    intro a
    apply ne_of_data_take 7
    rw [take7_generate, take7_chdir]
    decide
  have hne_g_pl : ("study.generate(template=\x22" ++ inp ++ "\x22)") ≠
      parameters_line ps := by
    apply ne_of_data_take 7
    rw [take7_generate, take7_parameters]
    decide
  have hne_g_sl : ("study.generate(template=\x22" ++ inp ++ "\x22)") ≠
      study_line := by
    apply ne_of_data_take 7
    rw [take7_generate]
    decide
  have hne_g_ex : ("study.generate(template=\x22" ++ inp ++ "\x22)") ≠
      execution_line cpu := by
    apply ne_of_data_take 7
    rw [take7_generate, take7_execution]
    decide
  cases af with
  | none =>
    refine ⟨?_, ?_, ?_, ?_⟩ <;>
    · intro hmem
      simp only [List.nil_append, List.mem_cons, List.not_mem_nil,
        or_false] at hmem
      rcases hmem with h | h | h
      all_goals first
      | exact hne_d_pl h
      | exact hne_d_ex h
      | exact hne_s_pl h
      | exact hne_s_ex h
      | exact hne_c_pl h
      | exact hne_c_ex h
      | exact hne_g_pl h
      | exact hne_g_ex h
      | exact hne_g_sl h
      | exact absurd h (by decide)
  | some a =>
    refine ⟨?_, ?_, ?_, ?_⟩ <;>
    · intro hmem
      simp only [List.cons_append, List.nil_append, List.mem_cons,
        List.not_mem_nil, or_false] at hmem
      rcases hmem with h | h | h | h
      all_goals first
      | exact hne_d_ch a h
      | exact hne_d_pl h
      | exact hne_d_ex h
      | exact hne_s_ch a h
      | exact hne_s_pl h
      | exact hne_s_ex h
      | exact hne_c_ch a h
      | exact hne_c_pl h
      | exact hne_c_ex h
      | exact hne_g_ch a h
      | exact hne_g_pl h
      | exact hne_g_ex h
      | exact hne_g_sl h
      | exact absurd h (by decide)

/-- Witness for C6 on a concrete study with and output checked at an
analysis folder. -/
theorem modify_psf_4_run_keeps_study_definition_witness :
    modify_psf_4_run_lines
      (build_parametric_psf_lines (some "A") "s" ["E"] "s.inp")
      (some "A").isSome 4 =
      some ([change_folder_line "A" "s"] ++
        [parameters_line ["E"], study_line, execution_line 4]) ∧
    hasSub ("cpus=" ++ toString (4 : Int)) (execution_line 4) := by
  have h := modify_psf_4_run_keeps_study_definition (some "A") "s" ["E"] "s.inp" 4
    (fun a ha => by cases ha; decide) (fun a ha => by cases ha; decide)
    (by decide) (by decide) (by decide)
  exact ⟨h.1, h.2.1⟩

/-- C1: for a valid configuration (single parameter with its range, a benign
study name, an inp deck holding an assembly section that the inp rewrite
accepts), `create_parametric_files` performs the pipeline in order: build the
samples csv, build the psf from it, modify the FEA inp deck, run the psf
through the Abaqus command line, and rewrite the psf with the job-execution
line; it returns the path of that final execution-ready psf, the same path
the last step wrote. -/
theorem create_parametric_files_pipeline (env : PipelineEnv)
    (cfg : ParametricConfig) (sn afv par0 : String) (mn mx : ℚ)
    (mnt mxt : List ℚ) (inpOut : List String)
    (hsn : sn = pStem env.config_file)
    (hafv : afv = cfg.analysis_folder.getD (pathJoin env.cwd sn))
    (hp : cfg.parameters_list = [par0])
    (hmn : cfg.min_values = mn :: mnt)
    (hmx : cfg.max_values = mx :: mxt)
    (hsn1 : '/' ∉ sn.data) (hsn2 : '.' ∉ sn.data) (hsn3 : sn.data ≠ [])
    (hmod : modify_inp_file cfg.parameters_list env.inp_lines = some inpOut)
    (hchp : ¬ hasSub "parameters = " (change_folder_line afv sn))
    (hchs : ¬ hasSub "study = " (change_folder_line afv sn))
    (hwp : ¬ hasSub "parameters = " (with_open_line sn))
    (hws : ¬ hasSub "study = " (with_open_line sn))
    (hps : ¬ hasSub "study = " (parameters_line cfg.parameters_list)) :
    create_parametric_files env cfg =
      some ([PipelineStep.gen_csv (pathJoin (pathJoin env.cwd sn) (sn ++ ".csv")),
             PipelineStep.build_psf (pathJoin (pathJoin env.cwd sn) (sn ++ ".psf")),
             PipelineStep.mod_inp,
             PipelineStep.run_psf_cmd (pathJoin (pathJoin env.cwd sn) (sn ++ ".psf")),
             PipelineStep.mod_psf (pathJoin (pathJoin afv sn) (sn ++ ".psf"))],
            [change_folder_line afv sn, parameters_line cfg.parameters_list,
             study_line,
             execution_line (resolve_cpu_numbers cfg.cpu_numbers env.max_cpu_no)],
            pathJoin (pathJoin afv sn) (sn ++ ".psf")) := by
  obtain ⟨rows, hrows⟩ : ∃ r, build_parametric_csv_rows cfg.parameters_list
      cfg.max_values cfg.min_values cfg.normal_values cfg.sample_size = some r := by
    rw [hp, hmn, hmx]
    exact ⟨_, rfl⟩
  have hdotcsv : (".csv" : String) = (⟨'.' :: ['c', 's', 'v']⟩ : String) := rfl
  have hdotpsf : (".psf" : String) = (⟨'.' :: ['p', 's', 'f']⟩ : String) := rfl
  have hcsv : pWithSuffix (pathJoin (pathJoin env.cwd sn) sn) ".csv" =
      pathJoin (pathJoin env.cwd sn) (sn ++ ".csv") :=
    pWithSuffix_join _ sn _ hsn1 hsn2
  have hpsfpath : build_parametric_psf_path
      (pathJoin (pathJoin env.cwd sn) (sn ++ ".csv")) =
      pathJoin (pathJoin env.cwd sn) (sn ++ ".psf") := by
    unfold build_parametric_psf_path
    rw [hdotcsv, pWithSuffix_join_ext _ sn ['c', 's', 'v'] _ hsn1 hsn3
      (by decide) (by decide)]
  have hstemcsv : pStem (pathJoin (pathJoin env.cwd sn) (sn ++ ".csv")) = sn := by
    rw [hdotcsv]
    exact pStem_join_ext _ sn ['c', 's', 'v'] hsn1 hsn3 (by decide) (by decide)
  have hstempsf : pStem (pathJoin (pathJoin env.cwd sn) (sn ++ ".psf")) = sn := by
    rw [hdotpsf]
    exact pStem_join_ext _ sn ['p', 's', 'f'] hsn1 hsn3 (by decide) (by decide)
  have hsufpsf : pSuffix (pathJoin (pathJoin env.cwd sn) (sn ++ ".psf")) =
      ".psf" := by
    rw [hdotpsf]
    have h := pSuffix_join_ext (pathJoin env.cwd sn) sn ['p', 's', 'f'] hsn1 hsn3
      (by decide) (by decide)
    rw [h]
  have hrun : run_psf (pathJoin (pathJoin env.cwd sn) (sn ++ ".psf")) afv =
      some [ProcEvent.popen
        ("abaqus script=" ++ pathJoin (pathJoin env.cwd sn) (sn ++ ".psf")),
        ProcEvent.communicate] := by
    unfold run_psf
    rw [hsufpsf, if_pos rfl]
    rfl
  have hmodpsf := modify_psf_on_build (some afv) sn cfg.parameters_list
    (pName (cfg.inp_file_name.getD sn))
    (resolve_cpu_numbers cfg.cpu_numbers env.max_cpu_no)
    (fun a ha => by cases ha; exact hchp) (fun a ha => by cases ha; exact hchs)
    hwp hws hps
  have hmodpsf2 : modify_psf_4_run_lines
      (build_parametric_psf_lines (some afv) sn cfg.parameters_list
        (pName (cfg.inp_file_name.getD sn))) true
      (resolve_cpu_numbers cfg.cpu_numbers env.max_cpu_no) =
      some [change_folder_line afv sn, parameters_line cfg.parameters_list,
        study_line,
        execution_line (resolve_cpu_numbers cfg.cpu_numbers env.max_cpu_no)] := by
    simpa using hmodpsf
  have hout : modify_psf_4_run_out_path
      (pathJoin (pathJoin env.cwd sn) (sn ++ ".psf")) (some afv) =
      pathJoin (pathJoin afv sn) (sn ++ ".psf") := by
    unfold modify_psf_4_run_out_path
    dsimp only
    rw [hstempsf, pWithSuffix_join _ sn _ hsn1 hsn2]
  unfold create_parametric_files
  dsimp only
  rw [← hsn, ← hafv, hrows]
  dsimp only
  rw [hcsv, hpsfpath, hstemcsv, hmod]
  dsimp only
  rw [hrun]
  dsimp only
  rw [hmodpsf2]
  dsimp only
  rw [hout]

/-- Witness for C1: one full pipeline run on a concrete configuration. -/
theorem create_parametric_files_pipeline_witness :
    ∃ tr ol op,
      create_parametric_files ⟨"C:", "study.cfg", 8, ["** ASSEMBLY\n"]⟩
        ⟨["E"], [1], [0], [5], 0, some 4, none, none⟩ = some (tr, ol, op) :=
  ⟨_, _, _, create_parametric_files_pipeline
    ⟨"C:", "study.cfg", 8, ["** ASSEMBLY\n"]⟩
    ⟨["E"], [1], [0], [5], 0, some 4, none, none⟩
    "study" "C:/study" "E" 0 1 [] []
    ["* PARAMETER\n", "E=100\n", "** ASSEMBLY\n"]
    (by decide) (by decide) rfl rfl rfl
    (by decide) (by decide) (by decide) (by decide)
    (by decide) (by decide) (by decide) (by decide) (by decide)⟩
